/-
  Verification of the Agent Orchestration core of
  `universal_ai_dev_platform` (src/universal_ai_dev_platform/core/
  orchestration/agent_orchestrator.py), shallowly embedded in Lean 4.

  Modelling conventions:
  * Python lists become `List`, dicts with fixed keys become structures,
    `dict.get(key, default)` on an intermediate result dict becomes an
    `Option` field read with `Option.getD`.
  * `datetime` timestamps become a logical clock of type `Nat`; the
    `await asyncio.gather` barrier of `_execute_tasks_parallel` is made
    explicit by threading that clock through the phases.
  * The capability executor is mocked in the source
    (`_execute_single_agent` merely sleeps); per the spec it is an opaque
    external collaborator returning output + recommendations or raising.
    It is therefore modelled as an oracle `Nat → Nat → InvOutcome`
    giving the outcome of invocation `j` of phase `i`.
  * Python's `list(set(xs))` has an unspecified (hash-dependent)
    iteration order; it is modelled as a parameter constrained only by
    `IsPySetList`: the output is duplicate-free and has the same
    members as the input.
  * Fields of the source dataclasses that no orchestration-core code
    ever reads (priority, monitoring, tasks, timeout, agent_constraints,
    the timestamp-derived `agent_id` / `workflow_id` strings) are
    omitted; all fields that the orchestration logic reads or writes are
    kept with their source names.
-/
import Mathlib

namespace UAIDP

/-- `AgentStatus` enum from the source. -/
inductive AgentStatus where
  | idle
  | busy
  | completed
  | failed
  | timeout
deriving DecidableEq, Repr

/-- The payload a successful capability invocation returns
(`result` dict of `_execute_single_agent`: output text plus a
recommendation list; the `agent_type`/`phase` echo fields are omitted). -/
structure AgentResult where
  output : String
  recommendations : List String
deriving DecidableEq, Repr

/-- `AgentExecution` dataclass: one record per capability invocation. -/
structure AgentExecution where
  agent_type : String
  task_id : String
  status : AgentStatus
  start_time : Nat
  end_time : Option Nat
  result : Option AgentResult
  error : Option String
  execution_time : Option Nat
  tokens_used : Option Nat
  api_calls : Option Nat
deriving DecidableEq, Repr

/-- `WorkflowSpecification` dataclass (fields the orchestration core
reads). `max_agents` is a non-negative integer per the spec. -/
structure WorkflowSpecification where
  name : String
  project_path : String
  max_agents : Nat
  dry_run : Bool
  dependencies : List (String × List String)
  required_agents : List String
  preferred_agents : List String
deriving DecidableEq, Repr

/-- One phase of an execution plan (`{"name", "agents",
"estimated_duration"}` dict of `_create_execution_plan`). -/
structure Phase where
  name : String
  agents : List String
  estimated_duration : Nat
deriving DecidableEq, Repr

/-- The execution-plan dict of `_create_execution_plan`
(`agent_assignments` is created empty and never read; omitted). -/
structure ExecutionPlan where
  phases : List Phase
  dependencies : List (String × List String)
  estimated_duration : Nat
deriving DecidableEq, Repr

/-- `config["available_agents"]` from `_default_config`. -/
def availableAgents : List String :=
  ["system-architect",
   "backend-developer",
   "frontend-developer",
   "database-specialist",
   "security-auditor",
   "performance-optimizer",
   "devops-engineer",
   "test-strategist",
   "code-quality-analyzer",
   "ui-ux-designer",
   "api-designer",
   "documentation-specialist",
   "debugger",
   "general-purpose",
   "llm-ai-agents-and-eng-research",
   "meta-agent",
   "work-completion-summary"]

/-- `config["max_agents_per_workflow"]` from `_default_config`. -/
def maxAgentsPerWorkflow : Nat := 20

/-- Structured form of the messages `_validate_workflow_spec` appends to
its `errors` list (the data each f-string carries; the missing-agent set
is a Python set, hence a `Finset`). -/
inductive ValidationError where
  | unknownAgents (missing : Finset String)
  | tooManyAgents (requested : Nat)
  | emptyProjectPath
deriving DecidableEq

/-- The `errors` list built by `_validate_workflow_spec`, in source
order: unknown required agents, then the agent-count ceiling, then the
empty project path. -/
def validationErrors (spec : WorkflowSpecification) : List ValidationError :=
  (if ¬ spec.required_agents.toFinset ⊆ availableAgents.toFinset then
      [ValidationError.unknownAgents
        (spec.required_agents.toFinset \ availableAgents.toFinset)]
    else []) ++
  (if maxAgentsPerWorkflow < spec.max_agents then
      [ValidationError.tooManyAgents spec.max_agents]
    else []) ++
  (if spec.project_path = "" then [ValidationError.emptyProjectPath] else [])

/-- `_validate_workflow_spec`: raises one aggregate `ValueError` carrying
all collected errors when the list is non-empty, otherwise returns. -/
def validateWorkflowSpec (spec : WorkflowSpecification) :
    Except (List ValidationError) Unit :=
  match validationErrors spec with
  | [] => Except.ok ()
  | es => Except.error es

/-- `_get_workflow_appropriate_agents`: the per-workflow-name default
capability lists, with the generic fallback. -/
def workflowAppropriateAgents (name : String) : List String :=
  if name = "full-stack-setup" then
    ["system-architect", "backend-developer", "frontend-developer",
     "database-specialist", "devops-engineer", "security-auditor"]
  else if name = "feature-development" then
    ["backend-developer", "frontend-developer", "test-strategist",
     "code-quality-analyzer", "ui-ux-designer"]
  else if name = "bug-investigation" then
    ["debugger", "code-quality-analyzer", "test-strategist",
     "general-purpose"]
  else if name = "performance-optimization" then
    ["performance-optimizer", "database-specialist", "backend-developer",
     "frontend-developer", "devops-engineer"]
  else if name = "security-hardening" then
    ["security-auditor", "backend-developer", "devops-engineer",
     "code-quality-analyzer"]
  else
    ["general-purpose", "backend-developer", "frontend-developer"]

/-- Second loop of `_select_optimal_agents`: append each preferred agent
that is in `available_agents`, while the selection is still below
`max_agents`, skipping agents already selected. -/
def addPreferredAgents (avail : List String) (maxA : Nat) :
    List String → List String → List String
  | [], sel => sel
  | a :: rest, sel =>
    if a ∈ avail ∧ sel.length < maxA then
      if a ∉ sel then addPreferredAgents avail maxA rest (sel ++ [a])
      else addPreferredAgents avail maxA rest sel
    else addPreferredAgents avail maxA rest sel

/-- Third loop of `_select_optimal_agents`: fill remaining slots from
the workflow-appropriate list, breaking once `max_agents` is reached,
skipping agents already selected. -/
def addWorkflowAgents (maxA : Nat) :
    List String → List String → List String
  | [], sel => sel
  | a :: rest, sel =>
    if maxA ≤ sel.length then sel
    else if a ∈ sel then addWorkflowAgents maxA rest sel
    else addWorkflowAgents maxA rest (sel ++ [a])

/-- `_select_optimal_agents`: seed with `required_agents` (a plain list
`extend`, no dedup), then preferred agents, then workflow defaults. -/
def selectOptimalAgents (spec : WorkflowSpecification) : List String :=
  addWorkflowAgents spec.max_agents (workflowAppropriateAgents spec.name)
    (addPreferredAgents availableAgents spec.max_agents
      spec.preferred_agents spec.required_agents)

/-- The constant validation phase of `_create_execution_plan`. -/
def validationPhase : Phase :=
  { name := "validation",
    agents := ["test-strategist", "code-quality-analyzer"],
    estimated_duration := 300 }

/-- `_create_execution_plan`: analysis phase (first three agents),
implementation phase (the rest, only when more than three agents),
constant validation phase; total duration is the sum of the phases. -/
def createExecutionPlan (spec : WorkflowSpecification)
    (agents : List String) : ExecutionPlan :=
  let phases1 : List Phase :=
    [{ name := "analysis",
       agents := if 3 ≤ agents.length then agents.take 3 else agents,
       estimated_duration := 300 }]
  let phases2 : List Phase :=
    if 3 < agents.length then
      phases1 ++ [{ name := "implementation",
                    agents := agents.drop 3,
                    estimated_duration := 900 }]
    else phases1
  let phases3 : List Phase := phases2 ++ [validationPhase]
  { phases := phases3,
    dependencies := spec.dependencies,
    estimated_duration := (phases3.map Phase.estimated_duration).sum }

/-- Modelled from the spec: the capability executor is mocked in the
source (`_execute_single_agent` only sleeps and returns a canned
success); the spec treats it as an opaque external collaborator
(`invoke(capabilityTag, …) -> {output, recommendations} | raises`).
One invocation outcome:
* `ok`: the executor returns output and recommendations after `dur`
  time units, consuming `tokens` (the mocked source uses `tokens = 100`,
  `api_calls = 1`);
* `err`: the executor raises `msg` after `dur` time units — caught by
  the `try/except` inside `_execute_single_agent`;
* `taskErr`: the coroutine itself fails with `msg` after `dur` time
  units, so `asyncio.gather(..., return_exceptions=True)` hands the
  dispatcher the exception object instead of an `AgentExecution`. -/
inductive InvOutcome where
  | ok (output : String) (recommendations : List String)
      (dur : Nat) (tokens : Nat)
  | err (msg : String) (dur : Nat)
  | taskErr (msg : String) (dur : Nat)
deriving DecidableEq, Repr

/-- Time an invocation outcome takes to settle. -/
def InvOutcome.dur : InvOutcome → Nat
  | .ok _ _ d _ => d
  | .err _ d => d
  | .taskErr _ d => d

/-- `_execute_single_agent` run at logical time `t`: records start and
end times around the executor call; on an executor exception returns a
`failed` record with the message (the `taskErr` case never reaches this
function — the dispatcher intercepts it — so it is mapped like `err`
only to make the match total). -/
def executeSingleAgent (agentType phaseName : String) (t : Nat) :
    InvOutcome → AgentExecution
  | .ok out recs d tokens =>
    { agent_type := agentType,
      task_id := phaseName ++ "_task",
      status := AgentStatus.completed,
      start_time := t,
      end_time := some (t + d),
      result := some { output := out, recommendations := recs },
      error := none,
      execution_time := some d,
      tokens_used := some tokens,
      api_calls := some 1 }
  | .err msg d =>
    { agent_type := agentType,
      task_id := phaseName ++ "_task",
      status := AgentStatus.failed,
      start_time := t,
      end_time := some (t + d),
      result := none,
      error := some msg,
      execution_time := some d,
      tokens_used := some 0,
      api_calls := some 0 }
  | .taskErr msg d =>
    { agent_type := agentType,
      task_id := phaseName ++ "_task",
      status := AgentStatus.failed,
      start_time := t,
      end_time := some (t + d),
      result := none,
      error := some msg,
      execution_time := some d,
      tokens_used := some 0,
      api_calls := some 0 }

/-- Result processing inside `_execute_tasks_parallel`: an entry of
`phase_results` that is an exception becomes a fresh `failed` record
stamped at processing time `tEnd` (after the gather barrier) with
`task_id = f"{phase}_task_{i}"`; any other entry is the
`AgentExecution` the coroutine returned. -/
def processResult (oracle : Nat → Nat → InvOutcome) (pIdx : Nat)
    (ph : Phase) (t tEnd : Nat) (j : Nat) (agentType : String) :
    AgentExecution :=
  match oracle pIdx j with
  | .taskErr msg _ =>
    { agent_type := agentType,
      task_id := ph.name ++ "_task_" ++ Nat.repr j,
      status := AgentStatus.failed,
      start_time := tEnd,
      end_time := some tEnd,
      result := none,
      error := some msg,
      execution_time := some 0,
      tokens_used := some 0,
      api_calls := some 0 }
  | o => executeSingleAgent agentType ph.name t o

/-- One phase of `_execute_tasks_parallel` starting at logical time
`t`: all invocations are launched together at `t`; the gather barrier
returns at `tEnd`, when the slowest invocation has settled; the
executions are collected in agent-list order. Returns the phase's
execution list and the clock after the barrier. -/
def runPhase (oracle : Nat → Nat → InvOutcome) (pIdx : Nat)
    (ph : Phase) (t : Nat) : List AgentExecution × Nat :=
  let tEnd := t +
    ((List.range ph.agents.length).map
      (fun j => (oracle pIdx j).dur)).foldl Nat.max 0
  (ph.agents.enum.map (fun ja => processResult oracle pIdx ph t tEnd ja.1 ja.2),
   tEnd)

/-- The per-phase loop of `_execute_tasks_parallel`, keeping the phases
as separate groups (used to state barrier/phase-shape properties). -/
def phaseGroups (oracle : Nat → Nat → InvOutcome) :
    List Phase → Nat → Nat → List (List AgentExecution)
  | [], _, _ => []
  | ph :: rest, pIdx, t =>
    (runPhase oracle pIdx ph t).1 ::
      phaseGroups oracle rest (pIdx + 1) (runPhase oracle pIdx ph t).2

/-- `_execute_tasks_parallel`: the flat execution list, phases
concatenated in order. -/
def executeTasksParallel (oracle : Nat → Nat → InvOutcome)
    (plan : ExecutionPlan) (t : Nat) : List AgentExecution :=
  (phaseGroups oracle plan.phases 0 t).flatten

/-- Per-agent output entry collected by `_aggregate_results`. -/
structure AgentOutput where
  agent : String
  output : String
  recommendations : List String
deriving DecidableEq, Repr

/-- Issue entry collected by `_aggregate_results` for failed
executions. -/
structure Issue where
  agent : String
  error : Option String
deriving DecidableEq, Repr

/-- The `metrics` sub-dict of `_aggregate_results`. -/
structure AggMetrics where
  total_execution_time : Nat
  successful_agents : Nat
  failed_agents : Nat
deriving DecidableEq, Repr

/-- The `results` dict built by `_aggregate_results`. -/
structure AggregatedResults where
  summary : String
  agent_outputs : List AgentOutput
  recommendations : List String
  issues : List Issue
  metrics : AggMetrics
deriving DecidableEq, Repr

/-- The loop body of `_aggregate_results` applied to one execution:
completed executions with a (truthy, i.e. present) result contribute an
agent-output entry and their recommendations; failed executions
contribute an issue; a truthy (present and non-zero) `execution_time`
is added to the total. -/
def aggregateStep (r : AggregatedResults) (e : AgentExecution) :
    AggregatedResults :=
  let r1 :=
    if e.status = AgentStatus.completed then
      match e.result with
      | some res =>
        { r with
          metrics := { r.metrics with
            successful_agents := r.metrics.successful_agents + 1 },
          agent_outputs := r.agent_outputs ++
            [{ agent := e.agent_type, output := res.output,
               recommendations := res.recommendations }],
          recommendations := r.recommendations ++ res.recommendations }
      | none =>
        { r with
          metrics := { r.metrics with
            successful_agents := r.metrics.successful_agents + 1 } }
    else if e.status = AgentStatus.failed then
      { r with
        metrics := { r.metrics with
          failed_agents := r.metrics.failed_agents + 1 },
        issues := r.issues ++ [{ agent := e.agent_type, error := e.error }] }
    else r
  match e.execution_time with
  | some d =>
    if d ≠ 0 then
      { r1 with metrics := { r1.metrics with
          total_execution_time := r1.metrics.total_execution_time + d } }
    else r1
  | none => r1

/-- The accumulation loop of `_aggregate_results`, before the final
`list(set(...))` dedup of the recommendations. -/
def aggregateLoop (execs : List AgentExecution) : AggregatedResults :=
  execs.foldl aggregateStep
    { summary := "Workflow execution completed",
      agent_outputs := [],
      recommendations := [],
      issues := [],
      metrics := { total_execution_time := 0, successful_agents := 0,
                   failed_agents := 0 } }

/-- The constraint CPython guarantees for `list(set(xs))` on strings:
the result is duplicate-free and has exactly the members of `xs`; its
order is hash-dependent and unspecified. -/
def IsPySetList (f : List String → List String) : Prop :=
  ∀ xs : List String, (f xs).Nodup ∧ ∀ a : String, a ∈ f xs ↔ a ∈ xs

/-- `_aggregate_results`: run the loop, then replace `recommendations`
with `list(set(recommendations))`, modelled by the order parameter
`setOrd`. -/
def aggregateResults (setOrd : List String → List String)
    (execs : List AgentExecution) : AggregatedResults :=
  let r := aggregateLoop execs
  { r with recommendations := setOrd r.recommendations }

/-- The intermediate result dict `orchestrate_workflow` reads with
`result.get(key, default)`: `_plan_workflow_execution` and
`_execute_workflow` populate different key sets, so every key except
`success` is optional. -/
structure WorkflowRunResult where
  success : Bool
  total_agents : Option Nat := none
  completed_agents : Option Nat := none
  failed_agents : Option Nat := none
  executions : Option (List AgentExecution) := none
  total_tokens : Option Nat := none
  final_output : Option String := none
  plan : Option ExecutionPlan := none
  selected_agents : Option (List String) := none
  estimated_duration : Option Nat := none
  estimated_tokens : Option Nat := none
deriving DecidableEq, Repr

/-- `_estimate_execution_time`: the plan's estimated duration. -/
def estimateExecutionTime (plan : ExecutionPlan) : Nat :=
  plan.estimated_duration

/-- `_estimate_token_usage`: 100 per agent slot across all phases. -/
def estimateTokenUsage (plan : ExecutionPlan) : Nat :=
  (plan.phases.map (fun ph => ph.agents.length)).sum * 100

/-- `_plan_workflow_execution` (the dry-run path): selects and plans but
creates no executions; note the returned dict carries only `success`,
`plan`, `selected_agents` and the two estimates. -/
def planWorkflowExecution (spec : WorkflowSpecification) :
    WorkflowRunResult :=
  let selected := selectOptimalAgents spec
  let plan := createExecutionPlan spec selected
  { success := true,
    plan := some plan,
    selected_agents := some selected,
    estimated_duration := some (estimateExecutionTime plan),
    estimated_tokens := some (estimateTokenUsage plan) }

/-- `_execute_workflow` (the live path, whose body raises nothing in
this model): select, plan, dispatch, aggregate, then count. -/
def executeWorkflowRun (setOrd : List String → List String)
    (oracle : Nat → Nat → InvOutcome) (spec : WorkflowSpecification)
    (t : Nat) : WorkflowRunResult :=
  let selected := selectOptimalAgents spec
  let plan := createExecutionPlan spec selected
  let execs := executeTasksParallel oracle plan t
  let results := aggregateResults setOrd execs
  let totalTokens := (execs.map (fun e => e.tokens_used.getD 0)).sum
  let completedCount :=
    (execs.filter (fun e => e.status = AgentStatus.completed)).length
  let failedCount :=
    (execs.filter (fun e => e.status = AgentStatus.failed)).length
  { success := failedCount == 0,
    total_agents := some execs.length,
    completed_agents := some completedCount,
    failed_agents := some failedCount,
    executions := some execs,
    total_tokens := some totalTokens,
    final_output := some results.summary }

/-- The fields of the source's `OrchestrationResult` that the
orchestration logic computes (timestamp/metadata/id strings omitted). -/
structure OrchestrationResult where
  success : Bool
  total_agents : Nat
  completed_agents : Nat
  failed_agents : Nat
  executions : List AgentExecution
  total_tokens_used : Nat
  final_output : Option String
deriving DecidableEq, Repr

/-- `orchestrate_workflow`: validate (a validation error is caught by
the enclosing `except` and turned into the all-zero failure envelope),
then run the dry-run or live path and assemble the final result with
`result.get(key, default)` reads. -/
def orchestrateWorkflow (setOrd : List String → List String)
    (oracle : Nat → Nat → InvOutcome) (spec : WorkflowSpecification)
    (t : Nat) : OrchestrationResult :=
  match validateWorkflowSpec spec with
  | Except.error _ =>
    { success := false,
      total_agents := 0,
      completed_agents := 0,
      failed_agents := 0,
      executions := [],
      total_tokens_used := 0,
      final_output := none }
  | Except.ok _ =>
    let r :=
      if spec.dry_run then planWorkflowExecution spec
      else executeWorkflowRun setOrd oracle spec t
    { success := r.success,
      total_agents := r.total_agents.getD 0,
      completed_agents := r.completed_agents.getD 0,
      failed_agents := r.failed_agents.getD 0,
      executions := r.executions.getD [],
      total_tokens_used := r.total_tokens.getD 0,
      final_output := r.final_output }

instance instDecEqExceptListValidationErrorUnit :
    DecidableEq (Except (List ValidationError) Unit)
  | Except.ok a, Except.ok b =>
    if h : a = b then isTrue (by rw [h])
    else isFalse (fun hh => h (by cases hh; rfl))
  | Except.ok _, Except.error _ => isFalse (fun hh => by cases hh)
  | Except.error _, Except.ok _ => isFalse (fun hh => by cases hh)
  | Except.error e, Except.error f =>
    if h : e = f then isTrue (by rw [h])
    else isFalse (fun hh => h (by cases hh; rfl))

/-! ### Concrete inputs, oracles and claim-side definitions
used by the theorems below -/

/-- Counterexample input for C3: a spec whose `required_agents` list
repeats a (known) tag. -/
def spec3cex : WorkflowSpecification :=
  { name := "x", project_path := "p", max_agents := 0, dry_run := false,
    dependencies := [],
    required_agents := ["backend-developer", "backend-developer"],
    preferred_agents := [] }

/-- Witness input for C3: a duplicate-free spec. -/
def spec3w : WorkflowSpecification :=
  { name := "feature-development", project_path := "p", max_agents := 3,
    dry_run := false, dependencies := [],
    required_agents := ["backend-developer"],
    preferred_agents := ["test-strategist"] }

/-- Counterexample input for C8: a preferred tag that is not a known
registry tag, with plenty of room. -/
def spec8cex : WorkflowSpecification :=
  { name := "no-such-workflow", project_path := "p", max_agents := 5,
    dry_run := false, dependencies := [],
    required_agents := [],
    preferred_agents := ["made-up-agent"] }

/-- Witness input for C8. -/
def spec8w : WorkflowSpecification :=
  { name := "x", project_path := "p", max_agents := 4,
    dry_run := false, dependencies := [],
    required_agents := ["debugger"],
    preferred_agents := ["security-auditor"] }

/-- Witness input for C4 (the spec's concrete scenario 3). -/
def spec4w : WorkflowSpecification :=
  { name := "x", project_path := "p", max_agents := 5, dry_run := false,
    dependencies := [], required_agents := [], preferred_agents := [] }

/-- Witness input for C7: a spec triggering all three violations. -/
def spec7w : WorkflowSpecification :=
  { name := "x", project_path := "", max_agents := 25, dry_run := false,
    dependencies := [],
    required_agents := ["no-such-agent"],
    preferred_agents := [] }

/-- The recommendation list one execution contributes to the
aggregation: present only for a completed execution with a (truthy)
result payload. -/
def completedContribution (e : AgentExecution) : List String :=
  if e.status = AgentStatus.completed then
    match e.result with
    | some res => res.recommendations
    | none => []
  else []

/-- Claim-side: the concatenation of the recommendation lists of all
completed executions, scanned in input order. -/
def completedRecommendations (execs : List AgentExecution) : List String :=
  (execs.map completedContribution).flatten

/-- Claim-side (the spec's "deduplicated union … order: first-seen"):
keep the first occurrence of each element, in scan order. -/
def firstSeenDedup (xs : List String) : List String :=
  xs.foldl (fun acc a => if a ∈ acc then acc else acc ++ [a]) []

/-- A legitimate instantiation of the unspecified `list(set(...))`
order: members of the deduplicated list, reversed. -/
def revDedupOrder : List String → List String := fun xs => xs.dedup.reverse

/-- Counterexample executions for C5 (the spec's scenario 5). -/
def execs5 : List AgentExecution :=
  [{ agent_type := "a1", task_id := "t1", status := AgentStatus.completed,
     start_time := 0, end_time := some 1,
     result := some { output := "o1", recommendations := ["r1", "r2"] },
     error := none, execution_time := some 1, tokens_used := some 100,
     api_calls := some 1 },
   { agent_type := "a2", task_id := "t2", status := AgentStatus.completed,
     start_time := 0, end_time := some 1,
     result := some { output := "o2", recommendations := ["r2", "r3"] },
     error := none, execution_time := some 1, tokens_used := some 100,
     api_calls := some 1 },
   { agent_type := "a3", task_id := "t3", status := AgentStatus.failed,
     start_time := 0, end_time := some 1, result := none,
     error := some "boom", execution_time := some 1,
     tokens_used := some 0, api_calls := some 0 }]

/-- Witness oracle for C9: phase 0 invocations run 5 time units,
later ones 7. -/
def oracle9w : Nat → Nat → InvOutcome := fun i _ =>
  if i = 0 then InvOutcome.ok "o" [] 5 100 else InvOutcome.ok "o" [] 7 100

/-- Witness plan for C9: two one-agent phases. -/
def plan9w : ExecutionPlan :=
  { phases := [{ name := "p1", agents := ["x"], estimated_duration := 300 },
               { name := "p2", agents := ["y"], estimated_duration := 300 }],
    dependencies := [], estimated_duration := 600 }

/-- The phase-0 execution of the C9 witness run. -/
def e9a : AgentExecution :=
  { agent_type := "x", task_id := "p1_task", status := AgentStatus.completed,
    start_time := 0, end_time := some 5,
    result := some { output := "o", recommendations := [] },
    error := none, execution_time := some 5, tokens_used := some 100,
    api_calls := some 1 }

/-- The phase-1 execution of the C9 witness run. -/
def e9b : AgentExecution :=
  { agent_type := "y", task_id := "p2_task", status := AgentStatus.completed,
    start_time := 5, end_time := some 12,
    result := some { output := "o", recommendations := [] },
    error := none, execution_time := some 7, tokens_used := some 100,
    api_calls := some 1 }

/-- An invocation outcome that raises with message `msg` (either inside
`_execute_single_agent` or at task level). -/
def InvOutcome.raisesMsg (o : InvOutcome) (msg : String) : Prop :=
  ∃ d, o = InvOutcome.err msg d ∨ o = InvOutcome.taskErr msg d

/-- Witness oracle for C2: invocation 0 of phase 0 raises "boom",
everything else succeeds. -/
def oracle2w : Nat → Nat → InvOutcome := fun i j =>
  if i = 0 ∧ j = 0 then InvOutcome.err "boom" 1
  else InvOutcome.ok "o" ["r"] 2 100

/-- First phase of the C2 witness plan. -/
def ph2a : Phase :=
  { name := "p1", agents := ["x", "y"], estimated_duration := 300 }

/-- Witness plan for C2: a two-agent phase followed by a one-agent
phase. -/
def plan2w : ExecutionPlan :=
  { phases := [ph2a,
               { name := "p2", agents := ["z"], estimated_duration := 300 }],
    dependencies := [], estimated_duration := 600 }

/-- A trivial always-succeeding capability-executor oracle. -/
def trivialOracle : Nat → Nat → InvOutcome :=
  fun _ _ => InvOutcome.ok "o" ["r"] 2 100

/-- A trivial stand-in for the `list(set(...))` order parameter on code
paths that never reach the aggregation step (or whose recommendation
order is irrelevant). -/
def idOrder : List String → List String := fun xs => xs

/-- Witness input for C10: a valid live spec selecting two
capabilities. -/
def spec10w : WorkflowSpecification :=
  { name := "feature-development", project_path := "p", max_agents := 2,
    dry_run := false, dependencies := [],
    required_agents := ["backend-developer"],
    preferred_agents := [] }

/-- Counterexample input for C1: a spec failing validation (empty
project path). -/
def spec1cex : WorkflowSpecification :=
  { name := "x", project_path := "", max_agents := 5, dry_run := false,
    dependencies := [], required_agents := [], preferred_agents := [] }

/-- Witness input for C1: a spec passing validation. -/
def spec1w : WorkflowSpecification :=
  { name := "x", project_path := "p", max_agents := 2, dry_run := false,
    dependencies := [], required_agents := [], preferred_agents := [] }

/-- Counterexample input for C6: a valid dry-run spec that selects five
capabilities. -/
def spec6cex : WorkflowSpecification :=
  { name := "feature-development", project_path := "p", max_agents := 5,
    dry_run := true, dependencies := [],
    required_agents := ["backend-developer"],
    preferred_agents := [] }

/-! ### Lemmas about the agent selector -/

lemma mem_addPreferredAgents {a : String} (avail : List String) (m : Nat)
    (pref : List String) {sel : List String} (h : a ∈ sel) :
    a ∈ addPreferredAgents avail m pref sel := by
  induction pref generalizing sel with
  | nil => simpa [addPreferredAgents] using h
  | cons p rest ih =>
    simp only [addPreferredAgents]
    split
    · split
      · exact ih (by simp [h])
      · exact ih h
    · exact ih h

lemma addPreferredAgents_subset {a : String} {avail : List String} {m : Nat}
    {pref sel : List String} (h : a ∈ addPreferredAgents avail m pref sel) :
    a ∈ sel ∨ (a ∈ pref ∧ a ∈ avail) := by
  induction pref generalizing sel with
  | nil => simp only [addPreferredAgents] at h; exact Or.inl h
  | cons p rest ih =>
    simp only [addPreferredAgents] at h
    split at h
    · rename_i hcond
      split at h
      · rcases ih h with hsel | hrest
        · rcases List.mem_append.1 hsel with hsel2 | hp
          · exact Or.inl hsel2
          · simp only [List.mem_singleton] at hp
            exact Or.inr ⟨by simp [hp], by rw [hp]; exact hcond.1⟩
        · exact Or.inr ⟨by simp [hrest.1], hrest.2⟩
      · rcases ih h with hsel | hrest
        · exact Or.inl hsel
        · exact Or.inr ⟨by simp [hrest.1], hrest.2⟩
    · rcases ih h with hsel | hrest
      · exact Or.inl hsel
      · exact Or.inr ⟨by simp [hrest.1], hrest.2⟩

lemma nodup_addPreferredAgents (avail : List String) (m : Nat)
    (pref : List String) {sel : List String} (h : sel.Nodup) :
    (addPreferredAgents avail m pref sel).Nodup := by
  induction pref generalizing sel with
  | nil => simpa [addPreferredAgents] using h
  | cons p rest ih =>
    simp only [addPreferredAgents]
    split
    · split
      · rename_i hnot
        exact ih (by simp [List.nodup_append, h, hnot])
      · exact ih h
    · exact ih h

lemma length_addPreferredAgents_le (avail : List String) (m : Nat)
    (pref sel : List String) :
    (addPreferredAgents avail m pref sel).length ≤ max m sel.length := by
  induction pref generalizing sel with
  | nil => simp [addPreferredAgents]
  | cons p rest ih =>
    simp only [addPreferredAgents]
    split
    · rename_i hcond
      split
      · have h2 := ih (sel ++ [p])
        simp only [List.length_append, List.length_singleton] at h2
        have := hcond.2
        omega
      · exact ih sel
    · exact ih sel

lemma addPreferredAgents_zero (avail : List String) (pref sel : List String) :
    addPreferredAgents avail 0 pref sel = sel := by
  induction pref with
  | nil => simp [addPreferredAgents]
  | cons p rest ih => simp [addPreferredAgents, ih]

lemma addPreferredAgents_append (avail : List String) (m : Nat)
    (pref sel : List String) :
    ∃ tail, addPreferredAgents avail m pref sel = sel ++ tail := by
  induction pref generalizing sel with
  | nil => exact ⟨[], by simp [addPreferredAgents]⟩
  | cons p rest ih =>
    simp only [addPreferredAgents]
    split
    · split
      · obtain ⟨tl, htl⟩ := ih (sel ++ [p])
        exact ⟨[p] ++ tl, by simp [htl]⟩
      · exact ih sel
    · exact ih sel

lemma mem_addPreferredAgents_of_room {a : String} {avail : List String}
    {m : Nat} {pref sel : List String}
    (hroom : sel.length + pref.length ≤ m) (ha : a ∈ pref)
    (hav : a ∈ avail) : a ∈ addPreferredAgents avail m pref sel := by
  induction pref generalizing sel with
  | nil => cases ha
  | cons p rest ih =>
    simp only [List.length_cons] at hroom
    rcases List.mem_cons.1 ha with hp | hrest
    · subst hp
      simp only [addPreferredAgents]
      have hlt : sel.length < m := by omega
      rw [if_pos ⟨hav, hlt⟩]
      split
      · exact mem_addPreferredAgents avail m rest (by simp)
      · rename_i hin
        exact mem_addPreferredAgents avail m rest (by simpa using hin)
    · simp only [addPreferredAgents]
      split
      · split
        · exact ih (by simp; omega) hrest
        · exact ih (by omega) hrest
      · exact ih (by omega) hrest

lemma mem_addWorkflowAgents {a : String} (m : Nat) (wl : List String)
    {sel : List String} (h : a ∈ sel) : a ∈ addWorkflowAgents m wl sel := by
  induction wl generalizing sel with
  | nil => simpa [addWorkflowAgents] using h
  | cons w rest ih =>
    simp only [addWorkflowAgents]
    split
    · exact h
    · split
      · exact ih h
      · exact ih (by simp [h])

lemma addWorkflowAgents_subset {a : String} {m : Nat} {wl sel : List String}
    (h : a ∈ addWorkflowAgents m wl sel) : a ∈ sel ∨ a ∈ wl := by
  induction wl generalizing sel with
  | nil => simp only [addWorkflowAgents] at h; exact Or.inl h
  | cons w rest ih =>
    simp only [addWorkflowAgents] at h
    split at h
    · exact Or.inl h
    · split at h
      · rcases ih h with hs | hr
        · exact Or.inl hs
        · exact Or.inr (by simp [hr])
      · rcases ih h with hs | hr
        · rcases List.mem_append.1 hs with hs2 | hw
          · exact Or.inl hs2
          · simp only [List.mem_singleton] at hw
            exact Or.inr (by simp [hw])
        · exact Or.inr (by simp [hr])

lemma nodup_addWorkflowAgents (m : Nat) (wl : List String)
    {sel : List String} (h : sel.Nodup) :
    (addWorkflowAgents m wl sel).Nodup := by
  induction wl generalizing sel with
  | nil => simpa [addWorkflowAgents] using h
  | cons w rest ih =>
    simp only [addWorkflowAgents]
    split
    · exact h
    · split
      · exact ih h
      · rename_i hnot
        exact ih (by simp [List.nodup_append, h, hnot])

lemma length_addWorkflowAgents_le (m : Nat) (wl sel : List String) :
    (addWorkflowAgents m wl sel).length ≤ max m sel.length := by
  induction wl generalizing sel with
  | nil => simp [addWorkflowAgents]
  | cons w rest ih =>
    simp only [addWorkflowAgents]
    split
    · omega
    · rename_i hlt
      split
      · exact ih sel
      · have h2 := ih (sel ++ [w])
        simp only [List.length_append, List.length_singleton] at h2
        omega

lemma addWorkflowAgents_of_le {m : Nat} (wl : List String)
    {sel : List String} (h : m ≤ sel.length) :
    addWorkflowAgents m wl sel = sel := by
  cases wl with
  | nil => simp [addWorkflowAgents]
  | cons w rest => simp [addWorkflowAgents, h]

lemma addWorkflowAgents_append (m : Nat) (wl sel : List String) :
    ∃ tail, addWorkflowAgents m wl sel = sel ++ tail := by
  induction wl generalizing sel with
  | nil => exact ⟨[], by simp [addWorkflowAgents]⟩
  | cons w rest ih =>
    simp only [addWorkflowAgents]
    split
    · exact ⟨[], by simp⟩
    · split
      · exact ih sel
      · obtain ⟨tl, htl⟩ := ih (sel ++ [w])
        exact ⟨[w] ++ tl, by simp [htl]⟩

/-! ### C3: agent-selection guarantees -/

/-- C3 (counterexample): the claim "select(spec) contains no duplicate
tag" is false: the selector seeds the result with a plain list-extend of
`required_agents`, so a duplicated required tag survives into the
result. (This spec also passes validation: set-based subset checking
does not see the duplicate.) -/
theorem select_nodup_cex :
    selectOptimalAgents spec3cex = ["backend-developer", "backend-developer"] ∧
    ¬ (selectOptimalAgents spec3cex).Nodup ∧
    validateWorkflowSpec spec3cex = Except.ok () := by
  refine ⟨by decide, by decide, by decide⟩

/-- C3 (amended): if the `required_agents` list itself has no duplicate,
`select(spec)` contains every required tag, has no duplicate tag, and
has size at most `max spec.max_agents |required|`; with `max_agents = 0`
the selector adds nothing beyond the required list (there is no platform
default that fills slots). -/
theorem select_guarantees (spec : WorkflowSpecification)
    (h : spec.required_agents.Nodup) :
    (∀ a ∈ spec.required_agents, a ∈ selectOptimalAgents spec) ∧
    (selectOptimalAgents spec).Nodup ∧
    (selectOptimalAgents spec).length ≤
      max spec.max_agents spec.required_agents.length ∧
    (spec.max_agents = 0 → selectOptimalAgents spec = spec.required_agents) := by
  refine ⟨?_, ?_, ?_, ?_⟩
  · intro a ha
    exact mem_addWorkflowAgents _ _
      (mem_addPreferredAgents _ _ _ ha)
  · exact nodup_addWorkflowAgents _ _
      (nodup_addPreferredAgents _ _ _ h)
  · have h1 := length_addWorkflowAgents_le spec.max_agents
      (workflowAppropriateAgents spec.name)
      (addPreferredAgents availableAgents spec.max_agents
        spec.preferred_agents spec.required_agents)
    have h2 := length_addPreferredAgents_le availableAgents spec.max_agents
      spec.preferred_agents spec.required_agents
    unfold selectOptimalAgents
    omega
  · intro h0
    unfold selectOptimalAgents
    rw [h0, addPreferredAgents_zero,
      addWorkflowAgents_of_le _ (Nat.zero_le _)]

/-- Witness for C3: the amended guarantees evaluated on `spec3w`. -/
theorem select_guarantees_witness :
    (∀ a ∈ spec3w.required_agents, a ∈ selectOptimalAgents spec3w) ∧
    (selectOptimalAgents spec3w).Nodup ∧
    (selectOptimalAgents spec3w).length ≤
      max spec3w.max_agents spec3w.required_agents.length ∧
    (spec3w.max_agents = 0 →
      selectOptimalAgents spec3w = spec3w.required_agents) :=
  select_guarantees spec3w (by decide)

/-! ### C8: the preferred-capability stage -/

/-- C8 (counterexample): the claim "a preferred tag is appended whether
or not it is a known tag of the capability registry" is false: the
preferred loop requires `agent in config["available_agents"]`, so the
unknown preferred tag is skipped even though the size limit is far from
reached, and only the workflow-default tags are selected. -/
theorem preferred_unknown_cex :
    "made-up-agent" ∈ spec8cex.preferred_agents ∧
    spec8cex.required_agents.length + spec8cex.preferred_agents.length ≤
      spec8cex.max_agents ∧
    selectOptimalAgents spec8cex =
      ["general-purpose", "backend-developer", "frontend-developer"] ∧
    "made-up-agent" ∉ selectOptimalAgents spec8cex := by
  refine ⟨by decide, by decide, by decide, by decide⟩

/-- C8 (amended): a preferred tag is appended by the preferred stage
only if it is a known tag of the available-agent registry: an unknown
preferred tag (not otherwise selectable) never appears in the result;
a known preferred tag is included whenever the budget has room for all
required and preferred tags; and the required list always forms the
front of the selection, with preferred and default tags appended after
it. -/
theorem preferred_stage (spec : WorkflowSpecification) (a : String) :
    (spec.required_agents.length + spec.preferred_agents.length ≤
        spec.max_agents →
      a ∈ spec.preferred_agents → a ∈ availableAgents →
      a ∈ selectOptimalAgents spec) ∧
    (a ∈ spec.preferred_agents → a ∉ availableAgents →
      a ∉ spec.required_agents → a ∉ workflowAppropriateAgents spec.name →
      a ∉ selectOptimalAgents spec) ∧
    (∃ rest, selectOptimalAgents spec = spec.required_agents ++ rest) := by
  refine ⟨?_, ?_, ?_⟩
  · intro hroom ha hav
    exact mem_addWorkflowAgents _ _
      (mem_addPreferredAgents_of_room hroom ha hav)
  · intro _ hav hreq hwl hmem
    rcases addWorkflowAgents_subset hmem with hp | hw
    · rcases addPreferredAgents_subset hp with hr | hpa
      · exact hreq hr
      · exact hav hpa.2
    · exact hwl hw
  · obtain ⟨t1, ht1⟩ := addPreferredAgents_append availableAgents
      spec.max_agents spec.preferred_agents spec.required_agents
    obtain ⟨t2, ht2⟩ := addWorkflowAgents_append spec.max_agents
      (workflowAppropriateAgents spec.name)
      (addPreferredAgents availableAgents spec.max_agents
        spec.preferred_agents spec.required_agents)
    refine ⟨t1 ++ t2, ?_⟩
    unfold selectOptimalAgents
    rw [ht2, ht1, List.append_assoc]

/-- Witness for C8: the amended preferred-stage properties evaluated on
`spec8w` and the tag "security-auditor". -/
theorem preferred_stage_witness :
    "security-auditor" ∈ selectOptimalAgents spec8w ∧
    (∃ rest, selectOptimalAgents spec8w = spec8w.required_agents ++ rest) :=
  ⟨(preferred_stage spec8w "security-auditor").1 (by decide) (by decide)
      (by decide),
   (preferred_stage spec8w "security-auditor").2.2⟩

/-! ### C4: execution-plan shape -/

/-- C4: the plan's analysis phase holds exactly the first `min(3, n)`
selected capabilities at an estimate of 300; the implementation phase
exists iff more than three capabilities were selected and holds the
rest at 900; the constant validation phase closes the plan at 300; the
total estimate is the sum of the phases, i.e. 1500 when `n > 3` and 600
otherwise. -/
theorem plan_shape (spec : WorkflowSpecification) (agents : List String) :
    ((createExecutionPlan spec agents).phases.head? =
      some { name := "analysis", agents := agents.take 3,
             estimated_duration := 300 }) ∧
    (3 < agents.length →
      (createExecutionPlan spec agents).phases =
        [{ name := "analysis", agents := agents.take 3,
           estimated_duration := 300 },
         { name := "implementation", agents := agents.drop 3,
           estimated_duration := 900 },
         validationPhase]) ∧
    (agents.length ≤ 3 →
      (createExecutionPlan spec agents).phases =
        [{ name := "analysis", agents := agents,
           estimated_duration := 300 },
         validationPhase]) ∧
    ((createExecutionPlan spec agents).estimated_duration =
      ((createExecutionPlan spec agents).phases.map
        Phase.estimated_duration).sum) ∧
    ((createExecutionPlan spec agents).estimated_duration =
      if 3 < agents.length then 1500 else 600) := by
  by_cases h3 : 3 < agents.length
  · have hle : 3 ≤ agents.length := Nat.le_of_lt h3
    refine ⟨?_, fun _ => ?_, fun hc => absurd hc (by omega), ?_, ?_⟩ <;>
      simp [createExecutionPlan, validationPhase, h3, hle]
  · have hle : agents.length ≤ 3 := by omega
    have htake : agents.take 3 = agents := List.take_of_length_le hle
    by_cases heq : 3 ≤ agents.length
    · refine ⟨?_, fun hc => absurd hc h3, fun _ => ?_, ?_, ?_⟩ <;>
        simp [createExecutionPlan, validationPhase, h3, heq, htake]
    · refine ⟨?_, fun hc => absurd hc h3, fun _ => ?_, ?_, ?_⟩ <;>
        simp [createExecutionPlan, validationPhase, h3, heq, htake]

/-- Witness for C4: five selected capabilities split 3/2 with a total
estimate of 1500. -/
theorem plan_shape_witness :
    (createExecutionPlan spec4w ["a", "b", "c", "d", "e"]).phases =
      [{ name := "analysis", agents := ["a", "b", "c"],
         estimated_duration := 300 },
       { name := "implementation", agents := ["d", "e"],
         estimated_duration := 900 },
       validationPhase] ∧
    (createExecutionPlan spec4w ["a", "b", "c", "d", "e"]).estimated_duration
      = 1500 := by
  have h := plan_shape spec4w ["a", "b", "c", "d", "e"]
  refine ⟨?_, ?_⟩
  · have h2 := h.2.1 (by decide)
    simpa using h2
  · have h2 := h.2.2.2.2
    simpa using h2

/-! ### C7: validation collects all violations -/

/-- C7: `validate` succeeds precisely when no violation is triggered,
and on failure the single aggregate error contains an entry for every
triggered violation — the full set of missing required tags, the
exceeded agent ceiling, and the empty target path. -/
theorem validation_aggregates (spec : WorkflowSpecification) :
    (validateWorkflowSpec spec = Except.ok () ↔
      (spec.required_agents.toFinset ⊆ availableAgents.toFinset ∧
       spec.max_agents ≤ maxAgentsPerWorkflow ∧
       ¬ spec.project_path = "")) ∧
    (∀ es, validateWorkflowSpec spec = Except.error es →
      ((¬ spec.required_agents.toFinset ⊆ availableAgents.toFinset →
          ValidationError.unknownAgents
            (spec.required_agents.toFinset \ availableAgents.toFinset)
            ∈ es) ∧
       (maxAgentsPerWorkflow < spec.max_agents →
          ValidationError.tooManyAgents spec.max_agents ∈ es) ∧
       (spec.project_path = "" →
          ValidationError.emptyProjectPath ∈ es) ∧
       es ≠ [])) := by
  unfold validateWorkflowSpec validationErrors
  by_cases h1 : spec.required_agents.toFinset ⊆ availableAgents.toFinset <;>
    by_cases h2 : maxAgentsPerWorkflow < spec.max_agents <;>
      by_cases h3 : spec.project_path = "" <;>
        simp [h1, h2, h3] <;> omega

/-- Witness for C7: on `spec7w`, validation fails with one error list
containing all three violations. -/
theorem validation_aggregates_witness :
    ValidationError.unknownAgents
      (spec7w.required_agents.toFinset \ availableAgents.toFinset)
      ∈ validationErrors spec7w ∧
    ValidationError.tooManyAgents spec7w.max_agents
      ∈ validationErrors spec7w ∧
    ValidationError.emptyProjectPath ∈ validationErrors spec7w := by
  have h := (validation_aggregates spec7w).2 (validationErrors spec7w)
    (by decide)
  exact ⟨h.1 (by decide), h.2.1 (by decide), h.2.2.1 (by decide)⟩

/-! ### C5: aggregated recommendations -/

lemma aggregateStep_recommendations (r : AggregatedResults)
    (e : AgentExecution) :
    (aggregateStep r e).recommendations =
      r.recommendations ++ completedContribution e := by
  unfold aggregateStep completedContribution
  by_cases hc : e.status = AgentStatus.completed
  · cases hr : e.result <;>
      cases ht : e.execution_time <;>
        simp [hc, hr, ht] <;> split <;> simp
  · by_cases hf : e.status = AgentStatus.failed <;>
      cases ht : e.execution_time <;>
        simp [hc, hf, ht] <;> split <;> simp

lemma foldl_aggregateStep_recommendations (execs : List AgentExecution)
    (r : AggregatedResults) :
    (execs.foldl aggregateStep r).recommendations =
      r.recommendations ++ completedRecommendations execs := by
  induction execs generalizing r with
  | nil => simp [completedRecommendations]
  | cons e rest ih =>
    simp only [List.foldl_cons]
    rw [ih, aggregateStep_recommendations]
    simp [completedRecommendations, List.append_assoc]

lemma aggregateLoop_recommendations (execs : List AgentExecution) :
    (aggregateLoop execs).recommendations = completedRecommendations execs := by
  unfold aggregateLoop
  rw [foldl_aggregateStep_recommendations]
  rfl

lemma isPySetList_revDedupOrder : IsPySetList revDedupOrder := by
  intro xs
  refine ⟨List.nodup_reverse.mpr (List.nodup_dedup xs), fun a => ?_⟩
  simp [revDedupOrder]

/-- C5 (counterexample): the claim that aggregation returns the
recommendations "in first-seen order" is false: the source dedups with
`list(set(recommendations))`, whose order is unspecified, and an
admissible set order (here: reversed) yields a different list. -/
theorem aggregate_first_seen_cex :
    ¬ (∀ f : List String → List String, IsPySetList f →
        ∀ execs : List AgentExecution,
          (aggregateResults f execs).recommendations =
            firstSeenDedup (completedRecommendations execs)) := by
  intro h
  have h2 := h revDedupOrder isPySetList_revDedupOrder execs5
  exact absurd h2 (by decide)

/-- C5 (amended): for every admissible `list(set(...))` order, the
aggregated recommendations are duplicate-free and contain exactly the
recommendations of the completed executions — the order is
unspecified. -/
theorem aggregate_recommendations (f : List String → List String)
    (hf : IsPySetList f) (execs : List AgentExecution) :
    (aggregateResults f execs).recommendations.Nodup ∧
    (∀ a, a ∈ (aggregateResults f execs).recommendations ↔
      a ∈ completedRecommendations execs) := by
  have hrw : (aggregateResults f execs).recommendations =
      f (completedRecommendations execs) := by
    unfold aggregateResults
    simp [aggregateLoop_recommendations]
  rw [hrw]
  exact ⟨(hf _).1, fun a => (hf _).2 a⟩

/-- Witness for C5: the amended property evaluated at the reversed set
order and the scenario-5 executions. -/
theorem aggregate_recommendations_witness :
    (aggregateResults revDedupOrder execs5).recommendations.Nodup ∧
    (∀ a, a ∈ (aggregateResults revDedupOrder execs5).recommendations ↔
      a ∈ completedRecommendations execs5) :=
  aggregate_recommendations revDedupOrder isPySetList_revDedupOrder execs5

/-! ### Lemmas about the parallel dispatcher -/

lemma le_foldl_max (l : List Nat) (b : Nat) : b ≤ l.foldl Nat.max b := by
  induction l generalizing b with
  | nil => exact Nat.le_refl b
  | cons x xs ih =>
    exact Nat.le_trans (Nat.le_max_left b x) (ih (Nat.max b x))

lemma mem_le_foldl_max {x : Nat} {l : List Nat} (b : Nat) (h : x ∈ l) :
    x ≤ l.foldl Nat.max b := by
  induction l generalizing b with
  | nil => cases h
  | cons y ys ih =>
    rcases List.mem_cons.1 h with hx | hx
    · subst hx
      exact Nat.le_trans (Nat.le_max_right b x) (le_foldl_max ys (Nat.max b x))
    · exact ih (Nat.max b y) hx

lemma runPhase_length (oracle : Nat → Nat → InvOutcome) (p : Nat)
    (ph : Phase) (t : Nat) :
    ((runPhase oracle p ph t).1).length = ph.agents.length := by
  simp [runPhase, List.enum_length]

lemma runPhase_clock_le (oracle : Nat → Nat → InvOutcome) (p : Nat)
    (ph : Phase) (t : Nat) : t ≤ (runPhase oracle p ph t).2 :=
  Nat.le_add_right t _

lemma runPhase_get? (oracle : Nat → Nat → InvOutcome) (p : Nat)
    (ph : Phase) (t : Nat) {j : Nat} {a : String}
    (h : ph.agents.get? j = some a) :
    ((runPhase oracle p ph t).1).get? j =
      some (processResult oracle p ph t ((runPhase oracle p ph t).2) j a) := by
  simp only [runPhase, List.get?_map, List.get?_enum, h]
  simp

lemma runPhase_mem_spec (oracle : Nat → Nat → InvOutcome) (p : Nat)
    (ph : Phase) (t : Nat) {e : AgentExecution}
    (he : e ∈ (runPhase oracle p ph t).1) :
    t ≤ e.start_time ∧
    (∃ te, e.end_time = some te ∧ e.start_time ≤ te ∧
      te ≤ (runPhase oracle p ph t).2) ∧
    (e.status = AgentStatus.completed ∨ e.status = AgentStatus.failed) := by
  simp only [runPhase] at he ⊢
  obtain ⟨⟨j, a⟩, hja, rfl⟩ := List.mem_map.1 he
  have hj : ph.agents.get? j = some a := List.mem_enum_iff_get?.1 hja
  have hjlt : j < ph.agents.length := by
    have := List.get?_eq_some.1 hj
    exact this.choose
  have hdur : (oracle p j).dur ≤
      ((List.range ph.agents.length).map
        (fun j => (oracle p j).dur)).foldl Nat.max 0 := by
    apply mem_le_foldl_max
    exact List.mem_map.2 ⟨j, List.mem_range.2 hjlt, rfl⟩
  unfold processResult
  cases ho : oracle p j with
  | taskErr msg d =>
    refine ⟨Nat.le_add_right t _, ⟨_, rfl, Nat.le_refl _, Nat.le_refl _⟩,
      Or.inr rfl⟩
  | ok out recs d tokens =>
    rw [ho] at hdur
    exact ⟨Nat.le_refl t, ⟨t + d, rfl, Nat.le_add_right t d,
      Nat.add_le_add_left hdur t⟩, Or.inl rfl⟩
  | err msg d =>
    rw [ho] at hdur
    exact ⟨Nat.le_refl t, ⟨t + d, rfl, Nat.le_add_right t d,
      Nat.add_le_add_left hdur t⟩, Or.inr rfl⟩

lemma phaseGroups_length (oracle : Nat → Nat → InvOutcome)
    (phs : List Phase) (p t : Nat) :
    (phaseGroups oracle phs p t).length = phs.length := by
  induction phs generalizing p t with
  | nil => rfl
  | cons ph rest ih => simp [phaseGroups, ih]

lemma phaseGroups_start_ge (oracle : Nat → Nat → InvOutcome)
    (phs : List Phase) (p t : Nat) :
    ∀ g ∈ phaseGroups oracle phs p t, ∀ e ∈ g, t ≤ e.start_time := by
  induction phs generalizing p t with
  | nil => intro g hg; cases hg
  | cons ph rest ih =>
    intro g hg e he
    simp only [phaseGroups, List.mem_cons] at hg
    rcases hg with hg | hg
    · subst hg
      exact (runPhase_mem_spec oracle p ph t he).1
    · exact Nat.le_trans (runPhase_clock_le oracle p ph t)
        (ih (p + 1) (runPhase oracle p ph t).2 g hg e he)

lemma phaseGroups_exec_spec (oracle : Nat → Nat → InvOutcome)
    (phs : List Phase) (p t : Nat) :
    ∀ g ∈ phaseGroups oracle phs p t, ∀ e ∈ g,
      (e.status = AgentStatus.completed ∨ e.status = AgentStatus.failed) ∧
      e.end_time ≠ none := by
  induction phs generalizing p t with
  | nil => intro g hg; cases hg
  | cons ph rest ih =>
    intro g hg e he
    simp only [phaseGroups, List.mem_cons] at hg
    rcases hg with hg | hg
    · subst hg
      obtain ⟨_, ⟨te, hte, _, _⟩, hst⟩ := runPhase_mem_spec oracle p ph t he
      exact ⟨hst, by simp [hte]⟩
    · exact ih (p + 1) (runPhase oracle p ph t).2 g hg e he

lemma phaseGroups_map_length (oracle : Nat → Nat → InvOutcome)
    (phs : List Phase) (p t : Nat) :
    (phaseGroups oracle phs p t).map List.length =
      phs.map (fun ph => ph.agents.length) := by
  induction phs generalizing p t with
  | nil => rfl
  | cons ph rest ih => simp [phaseGroups, runPhase_length, ih]

lemma phaseGroups_get? (oracle : Nat → Nat → InvOutcome)
    (phs : List Phase) (p t : Nat) {i : Nat} {ph : Phase}
    (h : phs.get? i = some ph) :
    ∃ ts, t ≤ ts ∧
      (phaseGroups oracle phs p t).get? i =
        some ((runPhase oracle (p + i) ph ts).1) := by
  induction phs generalizing p t i with
  | nil => cases h
  | cons ph0 rest ih =>
    cases i with
    | zero =>
      simp only [List.get?_cons_zero, Option.some.injEq] at h
      subst h
      exact ⟨t, Nat.le_refl t, rfl⟩
    | succ k =>
      simp only [List.get?_cons_succ] at h
      obtain ⟨ts, hts, hget⟩ := ih (p + 1) (runPhase oracle p ph0 t).2 h
      refine ⟨ts, Nat.le_trans (runPhase_clock_le oracle p ph0 t) hts, ?_⟩
      simp only [phaseGroups, List.get?_cons_succ]
      rw [show p + (k + 1) = p + 1 + k from by omega]
      exact hget

lemma phaseGroups_barrier (oracle : Nat → Nat → InvOutcome)
    (phs : List Phase) (p t : Nat) :
    ∀ i g gnext, (phaseGroups oracle phs p t).get? i = some g →
      (phaseGroups oracle phs p t).get? (i + 1) = some gnext →
      ∀ e ∈ g, ∀ te, e.end_time = some te →
        ∀ enext ∈ gnext, te ≤ enext.start_time := by
  induction phs generalizing p t with
  | nil => intro i g gnext hg; cases hg
  | cons ph rest ih =>
    intro i g gnext hg hgnext e he te hte enext henext
    cases i with
    | zero =>
      simp only [phaseGroups, List.get?_cons_zero, Option.some.injEq] at hg
      simp only [phaseGroups, List.get?_cons_succ] at hgnext
      subst hg
      obtain ⟨_, ⟨te2, hte2, _, hle⟩, _⟩ := runPhase_mem_spec oracle p ph t he
      rw [hte] at hte2
      cases hte2
      have hnext : gnext ∈ phaseGroups oracle rest (p + 1)
          (runPhase oracle p ph t).2 := List.get?_mem hgnext
      exact Nat.le_trans hle
        (phaseGroups_start_ge oracle rest (p + 1) (runPhase oracle p ph t).2
          gnext hnext enext henext)
    | succ k =>
      simp only [phaseGroups, List.get?_cons_succ] at hg hgnext
      exact ih (p + 1) (runPhase oracle p ph t).2 k g gnext hg hgnext
        e he te hte enext henext

/-! ### C9: strict phase barrier -/

/-- C9: in a live execution, no execution of phase `i+1` starts before
any end time recorded in phase `i`: the gather barrier clears a phase
completely before the next phase is launched. -/
theorem phase_barrier (oracle : Nat → Nat → InvOutcome)
    (plan : ExecutionPlan) (t i : Nat) (g gnext : List AgentExecution)
    (hg : (phaseGroups oracle plan.phases 0 t).get? i = some g)
    (hgnext : (phaseGroups oracle plan.phases 0 t).get? (i + 1) = some gnext)
    (e : AgentExecution) (he : e ∈ g) (te : Nat)
    (hte : e.end_time = some te)
    (enext : AgentExecution) (henext : enext ∈ gnext) :
    te ≤ enext.start_time :=
  phaseGroups_barrier oracle plan.phases 0 t i g gnext hg hgnext
    e he te hte enext henext

/-- Witness for C9: in the concrete two-phase run, the phase-0 end time
(5) is no later than the phase-1 start time. -/
theorem phase_barrier_witness :
    e9a.end_time = some 5 ∧ (5 : Nat) ≤ e9b.start_time :=
  ⟨by decide,
   phase_barrier oracle9w plan9w 0 0 [e9a] [e9b] (by decide) (by decide)
     e9a (by decide) 5 (by decide) e9b (by decide)⟩

/-! ### C2: failure isolation inside a phase -/

/-- C2: if invocation `j` of phase `i` raises with message `msg`, the
dispatcher still produces one group per phase (the workflow is never
aborted), the group of phase `i` still holds one terminal execution per
sibling capability, and the raising invocation is recorded as
`status = failed` with `error = msg`. -/
theorem failure_isolation (oracle : Nat → Nat → InvOutcome)
    (plan : ExecutionPlan) (t i j : Nat) (ph : Phase) (a msg : String)
    (hph : plan.phases.get? i = some ph)
    (ha : ph.agents.get? j = some a)
    (hraise : (oracle i j).raisesMsg msg) :
    (phaseGroups oracle plan.phases 0 t).length = plan.phases.length ∧
    ∃ g, (phaseGroups oracle plan.phases 0 t).get? i = some g ∧
      g.length = ph.agents.length ∧
      (∃ e, g.get? j = some e ∧ e.agent_type = a ∧
        e.status = AgentStatus.failed ∧ e.error = some msg ∧
        e.end_time ≠ none) ∧
      ∀ e ∈ g, (e.status = AgentStatus.completed ∨
        e.status = AgentStatus.failed) ∧ e.end_time ≠ none := by
  refine ⟨phaseGroups_length oracle plan.phases 0 t, ?_⟩
  obtain ⟨ts, _, hget⟩ := phaseGroups_get? oracle plan.phases 0 t hph
  rw [Nat.zero_add] at hget
  refine ⟨(runPhase oracle i ph ts).1, hget,
    runPhase_length oracle i ph ts, ?_, ?_⟩
  · refine ⟨processResult oracle i ph ts ((runPhase oracle i ph ts).2) j a,
      runPhase_get? oracle i ph ts ha, ?_⟩
    obtain ⟨d, hd | hd⟩ := hraise <;>
      simp [processResult, executeSingleAgent, hd]
  · intro e he
    exact phaseGroups_exec_spec oracle plan.phases 0 t _
      (List.get?_mem hget) e he

/-- Witness for C2: with "x" raising "boom" in the first phase, both
phases still produce full groups of terminal executions and the raising
invocation is recorded as failed with that message. -/
theorem failure_isolation_witness :
    (phaseGroups oracle2w plan2w.phases 0 0).length =
      plan2w.phases.length ∧
    ∃ g, (phaseGroups oracle2w plan2w.phases 0 0).get? 0 = some g ∧
      g.length = ph2a.agents.length ∧
      (∃ e, g.get? 0 = some e ∧ e.agent_type = "x" ∧
        e.status = AgentStatus.failed ∧ e.error = some "boom" ∧
        e.end_time ≠ none) ∧
      ∀ e ∈ g, (e.status = AgentStatus.completed ∨
        e.status = AgentStatus.failed) ∧ e.end_time ≠ none :=
  failure_isolation oracle2w plan2w 0 0 0 ph2a "x" "boom"
    (by decide) (by decide) ⟨1, Or.inl (by decide)⟩

/-! ### Façade lemmas -/

lemma orchestrateWorkflow_live (setOrd : List String → List String)
    (oracle : Nat → Nat → InvOutcome) (spec : WorkflowSpecification)
    (t : Nat) (hva : validateWorkflowSpec spec = Except.ok ())
    (hdry : spec.dry_run = false) :
    (orchestrateWorkflow setOrd oracle spec t).executions =
      executeTasksParallel oracle
        (createExecutionPlan spec (selectOptimalAgents spec)) t ∧
    (orchestrateWorkflow setOrd oracle spec t).total_agents =
      (executeTasksParallel oracle
        (createExecutionPlan spec (selectOptimalAgents spec)) t).length := by
  unfold orchestrateWorkflow
  rw [hva]
  simp [hdry, executeWorkflowRun]

lemma plan_agent_count (spec : WorkflowSpecification)
    (agents : List String) :
    (((createExecutionPlan spec agents).phases).map
      (fun ph => ph.agents.length)).sum = agents.length + 2 := by
  unfold createExecutionPlan validationPhase
  by_cases h : 3 < agents.length
  · have hle : 3 ≤ agents.length := Nat.le_of_lt h
    simp [h, hle, List.length_take, List.length_drop]
    omega
  · by_cases h2 : 3 ≤ agents.length <;>
      simp [h, h2, List.length_take] <;> omega

/-! ### C10: one execution per capability per phase -/

/-- C10: a live run that passes validation dispatches exactly one
execution per capability slot per phase — the group sizes match the
plan's per-phase agent counts, and since the validation phase always
re-invokes its two constant capabilities the total is `n + 2` for `n`
selected capabilities; `totalAgents` equals that total; and every
execution ends in `completed` or `failed` (never `timeout`) with a
non-null end time. -/
theorem live_execution_shape (setOrd : List String → List String)
    (oracle : Nat → Nat → InvOutcome) (spec : WorkflowSpecification)
    (t : Nat) (hva : validateWorkflowSpec spec = Except.ok ())
    (hdry : spec.dry_run = false) :
    (orchestrateWorkflow setOrd oracle spec t).executions.length =
      (selectOptimalAgents spec).length + 2 ∧
    (orchestrateWorkflow setOrd oracle spec t).total_agents =
      (selectOptimalAgents spec).length + 2 ∧
    ((phaseGroups oracle
        (createExecutionPlan spec (selectOptimalAgents spec)).phases 0 t).map
          List.length =
      (createExecutionPlan spec (selectOptimalAgents spec)).phases.map
        (fun ph => ph.agents.length)) ∧
    ∀ e ∈ (orchestrateWorkflow setOrd oracle spec t).executions,
      (e.status = AgentStatus.completed ∨ e.status = AgentStatus.failed) ∧
      e.end_time ≠ none := by
  obtain ⟨hex, htot⟩ := orchestrateWorkflow_live setOrd oracle spec t hva hdry
  have hlen : (executeTasksParallel oracle
      (createExecutionPlan spec (selectOptimalAgents spec)) t).length =
      (selectOptimalAgents spec).length + 2 := by
    unfold executeTasksParallel
    rw [List.length_flatten, phaseGroups_map_length, plan_agent_count]
  refine ⟨by rw [hex, hlen], by rw [htot, hlen],
    phaseGroups_map_length oracle _ 0 t, ?_⟩
  intro e he
  rw [hex] at he
  unfold executeTasksParallel at he
  obtain ⟨g, hg, heg⟩ := List.mem_flatten.1 he
  exact phaseGroups_exec_spec oracle _ 0 t g hg e heg

/-- Witness for C10: the concrete live run produces `2 + 2`
executions. -/
theorem live_execution_shape_witness :
    (orchestrateWorkflow idOrder trivialOracle spec10w 0).executions.length =
      (selectOptimalAgents spec10w).length + 2 ∧
    (orchestrateWorkflow idOrder trivialOracle spec10w 0).total_agents =
      (selectOptimalAgents spec10w).length + 2 :=
  ⟨(live_execution_shape idOrder trivialOracle spec10w 0 (by decide)
      (by decide)).1,
   (live_execution_shape idOrder trivialOracle spec10w 0 (by decide)
      (by decide)).2.1⟩

/-! ### C1: the success predicate -/

/-- C1 (counterexample): the claim `success == (failedAgents == 0)`
"always", including the caught-exception path, is false: the failure
envelope sets `success = False` together with `failed_agents = 0`, so
on any caught-exception run (here: a validation error) the equivalence
breaks. -/
theorem success_predicate_cex :
    (orchestrateWorkflow idOrder trivialOracle spec1cex 0).success = false ∧
    (orchestrateWorkflow idOrder trivialOracle spec1cex 0).failed_agents = 0 ∧
    ¬ ((orchestrateWorkflow idOrder trivialOracle spec1cex 0).success =
        ((orchestrateWorkflow idOrder trivialOracle spec1cex 0).failed_agents
          == 0)) := by
  refine ⟨by decide, by decide, by decide⟩

/-- C1 (amended): on every run that passes validation (dry or live),
`success == (failedAgents == 0)`; on a caught-exception run the
envelope instead carries `success = false` with `failedAgents = 0`. -/
theorem success_predicate (setOrd : List String → List String)
    (oracle : Nat → Nat → InvOutcome) (spec : WorkflowSpecification)
    (t : Nat) :
    (validateWorkflowSpec spec = Except.ok () →
      (orchestrateWorkflow setOrd oracle spec t).success =
        ((orchestrateWorkflow setOrd oracle spec t).failed_agents == 0)) ∧
    (∀ es, validateWorkflowSpec spec = Except.error es →
      (orchestrateWorkflow setOrd oracle spec t).success = false ∧
      (orchestrateWorkflow setOrd oracle spec t).failed_agents = 0) := by
  constructor
  · intro hok
    unfold orchestrateWorkflow
    rw [hok]
    by_cases hd : spec.dry_run
    · simp [hd, planWorkflowExecution]
    · simp [hd, executeWorkflowRun]
  · intro es herr
    unfold orchestrateWorkflow
    rw [herr]
    simp

/-- Witness for C1: the amended predicate evaluated on a validating
spec and on the validation-failure envelope. -/
theorem success_predicate_witness :
    ((orchestrateWorkflow idOrder trivialOracle spec1w 0).success =
      ((orchestrateWorkflow idOrder trivialOracle spec1w 0).failed_agents
        == 0)) ∧
    ((orchestrateWorkflow idOrder trivialOracle spec1cex 0).success = false ∧
     (orchestrateWorkflow idOrder trivialOracle spec1cex 0).failed_agents
       = 0) :=
  ⟨(success_predicate idOrder trivialOracle spec1w 0).1 (by decide),
   (success_predicate idOrder trivialOracle spec1cex 0).2
     [ValidationError.emptyProjectPath] (by decide)⟩

/-! ### C6: dry-run purity -/

/-- C6 (counterexample): the claim `totalAgents == |select(spec)|` on
the dry-run path is false: the dry-run result dict carries no
`total_agents` key, so `result.get("total_agents", 0)` makes the final
`total_agents` 0 even though five capabilities were selected. -/
theorem dry_run_total_agents_cex :
    (selectOptimalAgents spec6cex).length = 5 ∧
    (orchestrateWorkflow idOrder trivialOracle spec6cex 0).executions = [] ∧
    (orchestrateWorkflow idOrder trivialOracle spec6cex 0).total_agents ≠
      (selectOptimalAgents spec6cex).length := by
  refine ⟨by decide, by decide, by decide⟩

/-- C6 (amended): a validated dry-run produces no executions and never
invokes the capability executor (the result does not depend on the
executor oracle or the clock); its reported `totalAgents` is the
`get`-default 0, not the planned selection size. -/
theorem dry_run_purity (setOrd : List String → List String)
    (oracle oracle2 : Nat → Nat → InvOutcome)
    (spec : WorkflowSpecification) (t t2 : Nat)
    (hdry : spec.dry_run = true)
    (hva : validateWorkflowSpec spec = Except.ok ()) :
    (orchestrateWorkflow setOrd oracle spec t).executions = [] ∧
    (orchestrateWorkflow setOrd oracle spec t).total_agents = 0 ∧
    orchestrateWorkflow setOrd oracle spec t =
      orchestrateWorkflow setOrd oracle2 spec t2 := by
  unfold orchestrateWorkflow
  rw [hva]
  simp [hdry, planWorkflowExecution]

/-- Witness for C6: dry-run purity evaluated on `spec6cex` with two
different executor oracles and clocks. -/
theorem dry_run_purity_witness :
    (orchestrateWorkflow idOrder trivialOracle spec6cex 0).executions = [] ∧
    (orchestrateWorkflow idOrder trivialOracle spec6cex 0).total_agents
      = 0 ∧
    orchestrateWorkflow idOrder trivialOracle spec6cex 0 =
      orchestrateWorkflow idOrder oracle2w spec6cex 7 :=
  dry_run_purity idOrder trivialOracle oracle2w spec6cex 0 7
    (by decide) (by decide)

end UAIDP
